import Mathlib

/-!
Verification of the AQIwebhook data pipeline (main.go).

The development shallowly embeds the pure core of the program:
string-level missing-value classification, the station record model,
problem-station selection, the tolerant JSON response decoder, the
bounded retry loop of `main`, flexible time parsing and alert-time
formatting, and the webhook response validation shared by the two
notification channels.  Go strings are modelled as Lean `String`
(a list of Unicode scalar values); `strings.Contains` on valid UTF-8
agrees with infix containment of the rune sequences, which is how it
is modelled here.
-/

namespace AQIWebhook

/-- The whitespace test of Go `unicode.IsSpace` (the Unicode White_Space
property), used by `strings.TrimSpace`. -/
def goIsSpace (c : Char) : Bool :=
  let n := c.toNat
  (9 ≤ n && n ≤ 13) || n == 32 || n == 0x85 || n == 0xA0 || n == 0x1680 ||
  (0x2000 ≤ n && n ≤ 0x200A) || n == 0x2028 || n == 0x2029 ||
  n == 0x202F || n == 0x205F || n == 0x3000

/-- List-level core of Go `strings.TrimSpace`: drop whitespace runes from
both ends. -/
def goTrimSpaceL (l : List Char) : List Char :=
  ((l.dropWhile goIsSpace).reverse.dropWhile goIsSpace).reverse

/-- Go `strings.TrimSpace`. -/
def goTrimSpace (s : String) : String :=
  String.mk (goTrimSpaceL s.data)

/-- Rune-wise lowercasing (simple case mapping restricted to the ASCII
range, which is exact for comparisons against the ASCII/em-dash token set
used by the classifier), modelling Go `strings.ToLower`. -/
def asciiLower (c : Char) : Char :=
  if 'A' ≤ c ∧ c ≤ 'Z' then Char.ofNat (c.toNat + 32) else c

/-- Go `strings.ToLower`. -/
def goToLower (s : String) : String :=
  String.mk (s.data.map asciiLower)

/-- Go `strings.Contains s sub`: `sub` occurs contiguously inside `s`. -/
def goContains (s sub : String) : Bool :=
  decide (sub.data <:+: s.data)

/-- `isMissingValue` from main.go: recognises the common placeholder forms
for an absent reading. -/
def isMissingValue (s0 : String) : Bool :=
  let s := goTrimSpace s0
  if s = "" then true
  else
    let l := goToLower s
    if l = "-" ∨ l = "—" ∨ l = "na" ∨ l = "n/a" ∨ l = "null" then true
    else if goContains s "—" ∨ goContains s "缺失" then true
    else false

/-- The station record decoded from the upstream response (struct `AQIData`
in main.go); every field is raw text. -/
structure AQIData where
  PositionName : String
  Quality : String
  AQI : String
  O3 : String
  NO2 : String
  PM10 : String
  PM25 : String
  SO2 : String
  CO : String
  Latitude : String
  Longitude : String
  TimePoint : String
  StationCode : String
  PrimaryPollutant : String
deriving DecidableEq, Repr, Inhabited

/-- `hasMissingData` from main.go: true when any of the seven checked
fields (the AQI composite index and the six pollutants) is missing. -/
def hasMissingData (st : AQIData) : Bool :=
  isMissingValue st.AQI ||
  isMissingValue st.PM25 ||
  isMissingValue st.PM10 ||
  isMissingValue st.O3 ||
  isMissingValue st.NO2 ||
  isMissingValue st.SO2 ||
  isMissingValue st.CO

/-- `getMissingFactors` from main.go: the named factors that are missing,
accumulated in the fixed order of the source. -/
def getMissingFactors (st : AQIData) : List String :=
  let missing : List String := []
  let missing := if isMissingValue st.AQI then missing ++ ["AQI"] else missing
  let missing := if isMissingValue st.PM25 then missing ++ ["PM2.5"] else missing
  let missing := if isMissingValue st.PM10 then missing ++ ["PM10"] else missing
  let missing := if isMissingValue st.O3 then missing ++ ["O3"] else missing
  let missing := if isMissingValue st.NO2 then missing ++ ["NO2"] else missing
  let missing := if isMissingValue st.SO2 then missing ++ ["SO2"] else missing
  let missing := if isMissingValue st.CO then missing ++ ["CO"] else missing
  missing

/-- The canonical factor order used by `getMissingFactors`. -/
def canonicalFactors : List String :=
  ["AQI", "PM2.5", "PM10", "O3", "NO2", "SO2", "CO"]

/-- The build-time ignore set (`ignorePositionNames` in main.go). -/
def ignorePositionNames : List String := ["帽峰山森林公园"]

/-- `formatMissingFactors` from main.go. -/
def formatMissingFactors (factors : List String) : String :=
  if factors = [] then "无" else String.intercalate "、" factors

/-- The problem-station selection loop of `main`: skip ignored names, keep
stations with missing data, preserving upstream order. -/
def selectProblems (ignore : List String) (data : List AQIData) : List AQIData :=
  data.foldl (fun acc st =>
    if st.PositionName ∈ ignore then acc
    else if hasMissingData st then acc ++ [st] else acc) []

/-- State of the retry loop in `main`: the last fetch result (`data` and
`err` mirror the two Go variables), the sleeps performed in milliseconds,
the number of attempts issued, and whether the loop broke out early on
success. -/
structure RetrySt (E A : Type) where
  data : Option A
  err : Option E
  sleeps : List Nat
  attempts : Nat
  broke : Bool
deriving Repr

/-- Backoff before the next iteration after a failed attempt `i`:
`500*(1<<i)` milliseconds, from `main`. -/
def backoffMs (i : Nat) : Nat := 500 * 2 ^ i

/-- One iteration of the retry loop of `main`: fetch, break on success,
otherwise record the error and sleep `backoffMs i`. -/
def retryStep {E A : Type} (fetch : Nat → Except E A) (st : RetrySt E A)
    (i : Nat) : RetrySt E A :=
  if st.broke then st
  else
    match fetch i with
    | .ok a =>
      { st with data := some a, err := none, attempts := st.attempts + 1,
                broke := true }
    | .error e =>
      { st with data := none, err := some e, attempts := st.attempts + 1,
                sleeps := st.sleeps ++ [backoffMs i] }

/-- The retry loop of `main`: at most 3 iterations, indices 0, 1, 2. -/
def runRetry {E A : Type} (fetch : Nat → Except E A) : RetrySt E A :=
  [0, 1, 2].foldl (retryStep fetch) ⟨none, none, [], 0, false⟩

/-- Abstract JSON value, the parse tree of a raw payload.  An object is
the ordered list of its members as written, possibly with duplicate keys;
numeric values are modelled as integers (the program only ever compares a
number against zero). -/
inductive Json where
  | null : Json
  | bool (b : Bool) : Json
  | num (n : Int) : Json
  | str (s : String) : Json
  | arr (elems : List Json) : Json
  | obj (members : List (String × Json)) : Json

/-- The zero value of `AQIData` (what `encoding/json` starts from). -/
def zeroStation : AQIData :=
  { PositionName := "", Quality := "", AQI := "", O3 := "", NO2 := "",
    PM10 := "", PM25 := "", SO2 := "", CO := "", Latitude := "",
    Longitude := "", TimePoint := "", StationCode := "",
    PrimaryPollutant := "" }

/-- Case-insensitive key comparison of `encoding/json` field matching
(simple case folding restricted to ASCII, exact for the ASCII field names
of `AQIData`). -/
def keyFoldEq (a b : String) : Bool :=
  goToLower a == goToLower b

/-- The JSON keys of the `AQIData` struct fields, from the struct tags in
main.go. -/
def stationFieldKeys : List String :=
  ["PositionName", "Quality", "AQI", "O3", "NO2", "PM10", "PM2_5", "SO2",
   "CO", "Latitude", "Longitude", "TimePoint", "StationCode",
   "PrimaryPollutant"]

/-- Assign one object member to the matching `AQIData` field, as
`encoding/json` does: a string value is stored, a null leaves the field
unchanged, any other value for a known field is a type error (`none`);
members under unknown keys are ignored. -/
def assignField (st : AQIData) (k : String) (v : Json) : Option AQIData :=
  if stationFieldKeys.any (fun f => keyFoldEq f k) then
    match v with
    | .str s =>
      some (if keyFoldEq k "PositionName" then { st with PositionName := s }
        else if keyFoldEq k "Quality" then { st with Quality := s }
        else if keyFoldEq k "AQI" then { st with AQI := s }
        else if keyFoldEq k "O3" then { st with O3 := s }
        else if keyFoldEq k "NO2" then { st with NO2 := s }
        else if keyFoldEq k "PM10" then { st with PM10 := s }
        else if keyFoldEq k "PM2_5" then { st with PM25 := s }
        else if keyFoldEq k "SO2" then { st with SO2 := s }
        else if keyFoldEq k "CO" then { st with CO := s }
        else if keyFoldEq k "Latitude" then { st with Latitude := s }
        else if keyFoldEq k "Longitude" then { st with Longitude := s }
        else if keyFoldEq k "TimePoint" then { st with TimePoint := s }
        else if keyFoldEq k "StationCode" then { st with StationCode := s }
        else { st with PrimaryPollutant := s })
    | .null => some st
    | _ => none
  else some st

/-- Decode one element of a station array (`encoding/json` into
`AQIData`): an object assigns its members in order (a later duplicate key
wins), a null leaves the zero value, anything else is a type error. -/
def decodeStation : Json → Option AQIData
  | .null => some zeroStation
  | .obj members =>
    members.foldl (fun acc kv => acc.bind (fun st => assignField st kv.1 kv.2))
      (some zeroStation)
  | _ => none

/-- Decode a JSON value as `[]AQIData` (`encoding/json`): null gives the
nil slice, an array decodes elementwise, anything else is a type error. -/
def decodeStations : Json → Option (List AQIData)
  | .null => some []
  | .arr elems => elems.mapM decodeStation
  | _ => none

/-- Insert one member into the generic map as `encoding/json` builds
`map[string]json.RawMessage`: a later duplicate key overwrites the
earlier value. -/
def mapInsert (m : List (String × Json)) (k : String) (v : Json) :
    List (String × Json) :=
  if m.any (fun e => e.1 == k) then
    m.map (fun e => if e.1 == k then (k, v) else e)
  else m ++ [(k, v)]

/-- The generic key-to-raw-value map decoded from an object payload:
member list with duplicate keys collapsed, the last value winning. -/
def mapOf (members : List (String × Json)) : List (String × Json) :=
  members.foldl (fun m kv => mapInsert m kv.1 kv.2) []

/-- Go map lookup `obj[k]`. -/
def mapGet (m : List (String × Json)) (k : String) : Option Json :=
  match m.find? (fun e => e.1 == k) with
  | some e => some e.2
  | none => none

/-- The wrapper keys probed in priority order by `fetchAQIData`. -/
def wrapperKeys : List String :=
  ["Data", "data", "Rows", "rows", "Table", "table", "records", "Records"]

/-- The known-wrapper-key loop of `fetchAQIData`: probe each key in order;
when present and its value decodes as a station array, return that. -/
def tryWrapperKeys (m : List (String × Json)) : List String → Option (List AQIData)
  | [] => none
  | k :: rest =>
    match mapGet m k with
    | some v =>
      match decodeStations v with
      | some arr => some arr
      | none => tryWrapperKeys m rest
    | none => tryWrapperKeys m rest

/-- The fallback range loop of `fetchAQIData`: the first value in map
iteration order that decodes as a station array. -/
def scanValues : List (String × Json) → Option (List AQIData)
  | [] => none
  | kv :: rest =>
    match decodeStations kv.2 with
    | some arr => some arr
    | none => scanValues rest

/-- The decoding stage of `fetchAQIData`, parameterised by the map
iteration order `scanOrder` that the Go runtime would hand the fallback
range loop (Go randomises it; it is an oracle here): try the payload as a
direct station array; otherwise, for an object, probe the wrapper keys in
priority order and then fall back to the range scan; anything else is the
decode error (`none`). -/
def fetchDecode (v : Json) (scanOrder : List (String × Json)) :
    Option (List AQIData) :=
  match decodeStations v with
  | some arr => some arr
  | none =>
    match v with
    | .obj members =>
      match tryWrapperKeys (mapOf members) wrapperKeys with
      | some arr => some arr
      | none => scanValues scanOrder
    | _ => none

/-- The iteration orders the Go runtime may present to the fallback range
loop: any permutation of the deduplicated member map; irrelevant (empty)
for non-object payloads. -/
def IterOrder (v : Json) (scanOrder : List (String × Json)) : Prop :=
  match v with
  | .obj members => scanOrder.Perm (mapOf members)
  | _ => scanOrder = []

/-- The Response Decoder as the spec words it: a direct station array
first; on failure, parse the payload as a generic key-to-raw-value map and
return the first wrapper key in priority order whose value decodes as a
station array; if none match, scan the remaining values (those not under a
wrapper key) in iteration order and return the first that decodes; fail
only if no interpretation succeeds. -/
def decoderSpec (v : Json) (scanOrder : List (String × Json)) :
    Option (List AQIData) :=
  match decodeStations v with
  | some arr => some arr
  | none =>
    match v with
    | .obj members =>
      match wrapperKeys.findSome?
          (fun k => (mapGet (mapOf members) k).bind decodeStations) with
      | some arr => some arr
      | none =>
        (scanOrder.filter (fun kv => !wrapperKeys.contains kv.1)).findSome?
          (fun kv => decodeStations kv.2)
    | _ => none

/-- At most one member of the deduplicated map decodes as a station
array. -/
def atMostOneCandidate (members : List (String × Json)) : Prop :=
  ((mapOf members).filterMap (fun kv => decodeStations kv.2)).length ≤ 1

/-- The error cases of `fetchAQIData`. -/
inductive FetchErr where
  | reqError : FetchErr
  | transportError : FetchErr
  | httpStatusError (status : Nat) (bodyPrefix : String) : FetchErr
  | readError : FetchErr
  | decodeError : FetchErr
deriving DecidableEq, Repr

/-- One upstream HTTP exchange as `fetchAQIData` observes it: the status,
the body text (used only for the bounded diagnostic excerpt), the body's
JSON parse when the bytes are valid JSON (`none` otherwise), and the map
iteration order the runtime would hand the fallback range loop. -/
structure HttpResponse where
  status : Nat
  bodyText : String
  bodyJson : Option Json
  scanOrder : List (String × Json)

/-- Outcome of one fetch attempt before `fetchAQIData` interprets it. -/
inductive FetchOutcome where
  | transportFail : FetchOutcome
  | readFail : FetchOutcome
  | response (r : HttpResponse) : FetchOutcome

/-- `fetchAQIData` as a function of the attempt outcome: transport errors
and read errors surface as such; a non-200 status yields the status error
with a bounded body excerpt (the 2048-byte cap is modelled on runes); a
200 body that fails every decoding interpretation is the decode error. -/
def fetchAQIDataModel : FetchOutcome → Except FetchErr (List AQIData)
  | .transportFail => .error .transportError
  | .readFail => .error .readError
  | .response r =>
    if r.status ≠ 200 then
      .error (.httpStatusError r.status (r.bodyText.take 2048))
    else
      match r.bodyJson with
      | none => .error .decodeError
      | some v =>
        match fetchDecode v r.scanOrder with
        | some arr => .ok arr
        | none => .error .decodeError

/-- A parsed wall-clock time: the fields of a Go `time.Time` that
`Format("2006-01-02 15:04:05")` renders.  A location or zone offset only
shifts the absolute instant, never the wall-clock fields parsed from the
text, so it is not modelled. -/
structure GoTime where
  year : Nat
  month : Nat
  day : Nat
  hour : Nat
  minute : Nat
  second : Nat
deriving DecidableEq, Repr

/-- Decimal digit value of a character, if any. -/
def digitVal (c : Char) : Option Nat :=
  if '0' ≤ c ∧ c ≤ '9' then some (c.toNat - 48) else none

/-- Parse exactly two digits. -/
def parse2 : List Char → Option (Nat × List Char)
  | c1 :: c2 :: rest =>
    match digitVal c1, digitVal c2 with
    | some d1, some d2 => some (10 * d1 + d2, rest)
    | _, _ => none
  | _ => none

/-- Parse exactly four digits. -/
def parse4 : List Char → Option (Nat × List Char)
  | c1 :: c2 :: c3 :: c4 :: rest =>
    match digitVal c1, digitVal c2, digitVal c3, digitVal c4 with
    | some d1, some d2, some d3, some d4 =>
      some (1000 * d1 + 100 * d2 + 10 * d3 + d4, rest)
    | _, _, _, _ => none
  | _ => none

/-- Expect one literal character. -/
def expectChar (c : Char) : List Char → Option (List Char)
  | d :: rest => if d = c then some rest else none
  | [] => none

/-- Gregorian leap-year rule (`time` package). -/
def isLeapYear (y : Nat) : Bool :=
  y % 4 == 0 && (y % 100 != 0 || y % 400 == 0)

/-- Days in a month, as `time.Parse` validates the day field. -/
def daysInMonth (y m : Nat) : Nat :=
  if m = 2 then (if isLeapYear y then 29 else 28)
  else if m = 4 ∨ m = 6 ∨ m = 9 ∨ m = 11 then 30
  else 31

/-- Parse a "2006-01-02"-shaped date with the given separator, with the
range validation `time.Parse` performs. -/
def parseDate (sep : Char) (l : List Char) :
    Option (Nat × Nat × Nat × List Char) := do
  let (y, l) ← parse4 l
  let l ← expectChar sep l
  let (m, l) ← parse2 l
  let l ← expectChar sep l
  let (d, l) ← parse2 l
  if 1 ≤ m ∧ m ≤ 12 ∧ 1 ≤ d ∧ d ≤ daysInMonth y m then
    some (y, m, d, l)
  else none

/-- Optional fractional seconds ("." or "," followed by at least one
digit), which `time.Parse` accepts after a seconds field even when the
layout has none. -/
def skipFraction (l : List Char) : List Char :=
  match l with
  | c :: rest =>
    if c = '.' ∨ c = ',' then
      match rest with
      | d :: _ =>
        if (digitVal d).isSome then
          rest.dropWhile (fun x => (digitVal x).isSome)
        else l
      | [] => l
    else l
  | [] => l

/-- Parse a "15:04:05" clock time with `time.Parse`'s range validation and
fractional-second tolerance. -/
def parseClock (l : List Char) : Option (Nat × Nat × Nat × List Char) := do
  let (h, l) ← parse2 l
  let l ← expectChar ':' l
  let (mi, l) ← parse2 l
  let l ← expectChar ':' l
  let (s, l) ← parse2 l
  let l := skipFraction l
  if h ≤ 23 ∧ mi ≤ 59 ∧ s ≤ 59 then some (h, mi, s, l) else none

/-- Parse the RFC3339 zone suffix: "Z" or a signed "hh:mm" offset. -/
def parseZone (l : List Char) : Option (List Char) :=
  match l with
  | 'Z' :: rest => some rest
  | c :: rest =>
    if c = '+' ∨ c = '-' then do
      let (zh, rest) ← parse2 rest
      let rest ← expectChar ':' rest
      let (zm, rest) ← parse2 rest
      if zh ≤ 23 ∧ zm ≤ 59 then some rest else none
    else none
  | [] => none

/-- The five layouts tried by `parseTimeFlexible`, in source order:
RFC3339 with timezone, "2006-01-02T15:04:05", "2006-01-02 15:04:05",
"2006/01/02 15:04:05", "2006-01-02". -/
inductive TimeLayout where
  | rfc3339 : TimeLayout
  | dateTimeT : TimeLayout
  | dateTimeSpace : TimeLayout
  | dateTimeSlash : TimeLayout
  | dateOnly : TimeLayout
deriving DecidableEq, Repr

/-- The layout list of `parseTimeFlexible`. -/
def layouts : List TimeLayout :=
  [.rfc3339, .dateTimeT, .dateTimeSpace, .dateTimeSlash, .dateOnly]

/-- `time.ParseInLocation` of one layout against the whole input. -/
def parseWithLayout (lay : TimeLayout) (ts : String) : Option GoTime :=
  let l := ts.data
  match lay with
  | .rfc3339 => do
    let (y, m, d, l) ← parseDate '-' l
    let l ← expectChar 'T' l
    let (h, mi, s, l) ← parseClock l
    let l ← parseZone l
    if l = [] then some ⟨y, m, d, h, mi, s⟩ else none
  | .dateTimeT => do
    let (y, m, d, l) ← parseDate '-' l
    let l ← expectChar 'T' l
    let (h, mi, s, l) ← parseClock l
    if l = [] then some ⟨y, m, d, h, mi, s⟩ else none
  | .dateTimeSpace => do
    let (y, m, d, l) ← parseDate '-' l
    let l ← expectChar ' ' l
    let (h, mi, s, l) ← parseClock l
    if l = [] then some ⟨y, m, d, h, mi, s⟩ else none
  | .dateTimeSlash => do
    let (y, m, d, l) ← parseDate '/' l
    let l ← expectChar ' ' l
    let (h, mi, s, l) ← parseClock l
    if l = [] then some ⟨y, m, d, h, mi, s⟩ else none
  | .dateOnly => do
    let (y, m, d, l) ← parseDate '-' l
    if l = [] then some ⟨y, m, d, 0, 0, 0⟩ else none

/-- `parseTimeFlexible` from main.go: trim, reject empty, then try the
layouts in order; the first success wins. -/
def parseTimeFlexible (ts : String) : Option GoTime :=
  let t := goTrimSpace ts
  if t = "" then none
  else layouts.findSome? (fun lay => parseWithLayout lay t)

/-- Left-pad a number to two digits. -/
def pad2 (n : Nat) : String :=
  if n < 10 then "0" ++ toString n else toString n

/-- Left-pad a number to four digits. -/
def pad4 (n : Nat) : String :=
  if n < 10 then "000" ++ toString n
  else if n < 100 then "00" ++ toString n
  else if n < 1000 then "0" ++ toString n
  else toString n

/-- `t.Format("2006-01-02 15:04:05")`. -/
def formatGoTime (t : GoTime) : String :=
  pad4 t.year ++ "-" ++ pad2 t.month ++ "-" ++ pad2 t.day ++ " " ++
  pad2 t.hour ++ ":" ++ pad2 t.minute ++ ":" ++ pad2 t.second

/-- `formatTimeForAlert` from main.go: "Unknown" for an empty problem
list, the canonically re-rendered first timestamp when it parses, the raw
string verbatim otherwise. -/
def formatTimeForAlert (ps : List AQIData) : String :=
  match ps with
  | [] => "Unknown"
  | p :: _ =>
    match parseTimeFlexible p.TimePoint with
    | some t => formatGoTime t
    | none => p.TimePoint

/-- Result of one webhook dispatch as the two send functions classify
their HTTP response (the bounded body excerpts carried inside the Go
error strings are diagnostics and are not modelled). -/
inductive WebhookResult where
  | httpStatusError (status : Nat) : WebhookResult
  | appError (errcode : Int) : WebhookResult
  | ok : WebhookResult
deriving DecidableEq, Repr

/-- Response validation tail of `sendAlertToWechatWork`: non-200 status is
the status error; otherwise parse the body as a generic JSON object
(best-effort) and fail only on a numeric non-zero "errcode" member. -/
def wechatResponseCheck (status : Nat) (body : Option Json) : WebhookResult :=
  if status ≠ 200 then .httpStatusError status
  else
    match body with
    | some (.obj members) =>
      match mapGet (mapOf members) "errcode" with
      | some (.num n) => if n ≠ 0 then .appError n else .ok
      | _ => .ok
    | _ => .ok

/-- Response validation tail of `sendAlertToDingTalk`, identical in the
source to the WeChat Work one. -/
def dingtalkResponseCheck (status : Nat) (body : Option Json) : WebhookResult :=
  if status ≠ 200 then .httpStatusError status
  else
    match body with
    | some (.obj members) =>
      match mapGet (mapOf members) "errcode" with
      | some (.num n) => if n ≠ 0 then .appError n else .ok
      | _ => .ok
    | _ => .ok

/-- The numeric "errcode" member of a body that parses as a generic JSON
object, if any. -/
def bodyErrcode (body : Option Json) : Option Int :=
  match body with
  | some (.obj members) =>
    match mapGet (mapOf members) "errcode" with
    | some (.num n) => some n
    | _ => none
  | _ => none

/-- Dropping a whitespace prefix preserves occurrences of a pattern that
contains no whitespace rune. -/
theorem infix_dropWhile_of_infix (p : Char → Bool) (pat : List Char)
    (hnp : ∀ c ∈ pat, p c = false) :
    ∀ l : List Char, pat <:+: l → pat <:+: l.dropWhile p := by
  intro l
  induction l with
  | nil => intro h; exact h
  | cons x t ih =>
    intro h
    by_cases hx : p x = true
    · rcases List.infix_cons_iff.1 h with hpre | hinf
      · rcases pat with _ | ⟨a, pat⟩
        · exact List.nil_infix
        · rcases hpre with ⟨r, hr⟩
          have hax : a = x := by
            have := congrArg (fun m => m.head?) hr
            simpa using this
          have : p a = false := hnp a (List.mem_cons_self a pat)
          rw [hax, hx] at this
          exact absurd this (by simp)
      · have := ih hinf
        simpa [List.dropWhile_cons, hx] using this
    · simpa [List.dropWhile_cons, hx] using h

/-- A pattern without whitespace runes occurs in the trimmed string exactly
when it occurs in the raw string. -/
theorem infix_goTrimSpaceL_iff (pat : List Char)
    (hnp : ∀ c ∈ pat, goIsSpace c = false) (l : List Char) :
    pat <:+: goTrimSpaceL l ↔ pat <:+: l := by
  constructor
  · intro h
    have h1 : goTrimSpaceL l <:+: l.dropWhile goIsSpace := by
      unfold goTrimSpaceL
      have hs : (l.dropWhile goIsSpace).reverse.dropWhile goIsSpace <:+
          (l.dropWhile goIsSpace).reverse := List.dropWhile_suffix _
      have hp : ((l.dropWhile goIsSpace).reverse.dropWhile goIsSpace).reverse <+:
          l.dropWhile goIsSpace := by
        rw [← List.reverse_reverse (l.dropWhile goIsSpace)]
        exact List.reverse_prefix.2 (by simpa using hs)
      exact hp.isInfix
    have h2 : l.dropWhile goIsSpace <:+: l := (List.dropWhile_suffix _).isInfix
    exact h.trans (h1.trans h2)
  · intro h
    have step1 : pat <:+: l.dropWhile goIsSpace :=
      infix_dropWhile_of_infix goIsSpace pat hnp l h
    have hrev : pat.reverse <:+: (l.dropWhile goIsSpace).reverse := by
      exact List.reverse_infix.2 step1
    have hnp2 : ∀ c ∈ pat.reverse, goIsSpace c = false := by
      intro c hc
      exact hnp c (List.mem_reverse.1 hc)
    have step2 : pat.reverse <:+: (l.dropWhile goIsSpace).reverse.dropWhile goIsSpace :=
      infix_dropWhile_of_infix goIsSpace pat.reverse hnp2 _ hrev
    unfold goTrimSpaceL
    have := List.reverse_infix.2 step2
    simpa using this

/-- C1.  The Missing-Value Classifier returns missing exactly when the
trimmed value is empty, the lowercased trimmed value is one of the fixed
placeholder tokens, or the raw value contains an em-dash or the marker
"缺失" as a substring anywhere; the value "35" is present. -/
theorem missing_value_classifier_correct :
    (∀ s : String, isMissingValue s = true ↔
      (goTrimSpace s = "" ∨
       goToLower (goTrimSpace s) ∈ (["-", "—", "na", "n/a", "null"] : List String) ∨
       "—".data <:+: s.data ∨ "缺失".data <:+: s.data)) ∧
    isMissingValue "35" = false := by
  constructor
  · intro s
    have hdash : ∀ c ∈ ("—" : String).data, goIsSpace c = false := by decide
    have hqs : ∀ c ∈ ("缺失" : String).data, goIsSpace c = false := by decide
    have hd : ("—" : String).data <:+: (goTrimSpace s).data ↔
        ("—" : String).data <:+: s.data := by
      show ("—" : String).data <:+: goTrimSpaceL s.data ↔ _
      exact infix_goTrimSpaceL_iff _ hdash _
    have hq : ("缺失" : String).data <:+: (goTrimSpace s).data ↔
        ("缺失" : String).data <:+: s.data := by
      show ("缺失" : String).data <:+: goTrimSpaceL s.data ↔ _
      exact infix_goTrimSpaceL_iff _ hqs _
    by_cases h1 : goTrimSpace s = ""
    · simp [isMissingValue, h1]
    · by_cases h2 : goToLower (goTrimSpace s) = "-" ∨ goToLower (goTrimSpace s) = "—" ∨
          goToLower (goTrimSpace s) = "na" ∨ goToLower (goTrimSpace s) = "n/a" ∨
          goToLower (goTrimSpace s) = "null"
      · simp [isMissingValue, h1, h2]
      · simp only [isMissingValue, h1, if_false, h2, goContains]
        simp [h1, h2, hd, hq]
  · decide


theorem getMissingFactors_eq (r : AQIData) :
    getMissingFactors r =
      (if isMissingValue r.AQI then ["AQI"] else []) ++
      (if isMissingValue r.PM25 then ["PM2.5"] else []) ++
      (if isMissingValue r.PM10 then ["PM10"] else []) ++
      (if isMissingValue r.O3 then ["O3"] else []) ++
      (if isMissingValue r.NO2 then ["NO2"] else []) ++
      (if isMissingValue r.SO2 then ["SO2"] else []) ++
      (if isMissingValue r.CO then ["CO"] else []) := by
  simp only [getMissingFactors]
  by_cases h1 : isMissingValue r.AQI = true <;>
  by_cases h2 : isMissingValue r.PM25 = true <;>
  by_cases h3 : isMissingValue r.PM10 = true <;>
  by_cases h4 : isMissingValue r.O3 = true <;>
  by_cases h5 : isMissingValue r.NO2 = true <;>
  by_cases h6 : isMissingValue r.SO2 = true <;>
  by_cases h7 : isMissingValue r.CO = true <;>
  simp [h1, h2, h3, h4, h5, h6, h7]

theorem getMissingFactors_sublist (r : AQIData) :
    List.Sublist (getMissingFactors r) canonicalFactors := by
  have hx : ∀ (b : Bool) (x : String),
      List.Sublist (if b = true then [x] else []) [x] := by
    intro b x; cases b <;> simp
  rw [getMissingFactors_eq]
  exact (((((((hx _ _).append (hx _ _)).append (hx _ _)).append (hx _ _)).append
    (hx _ _)).append (hx _ _)).append (hx _ _))

theorem hasMissingData_iff_factors_ne_nil (r : AQIData) :
    hasMissingData r = true ↔ getMissingFactors r ≠ [] := by
  rw [getMissingFactors_eq]
  simp only [hasMissingData]
  by_cases h1 : isMissingValue r.AQI = true <;>
  by_cases h2 : isMissingValue r.PM25 = true <;>
  by_cases h3 : isMissingValue r.PM10 = true <;>
  by_cases h4 : isMissingValue r.O3 = true <;>
  by_cases h5 : isMissingValue r.NO2 = true <;>
  by_cases h6 : isMissingValue r.SO2 = true <;>
  by_cases h7 : isMissingValue r.CO = true <;>
  simp [h1, h2, h3, h4, h5, h6, h7]

theorem hasMissingData_eq_not_isEmpty (r : AQIData) :
    hasMissingData r = !(getMissingFactors r).isEmpty := by
  cases h : hasMissingData r
  · have : ¬ getMissingFactors r ≠ [] := by
      intro hne
      have := (hasMissingData_iff_factors_ne_nil r).2 hne
      rw [h] at this
      exact absurd this (by simp)
    push_neg at this
    simp [this]
  · have := (hasMissingData_iff_factors_ne_nil r).1 h
    rcases hne : getMissingFactors r with _ | ⟨a, t⟩
    · exact absurd hne this
    · simp

/-- C2 counterexample: a record whose AQI field is a placeholder while all
six pollutant fields read "35" has missing data, although none of the six
pollutant fields classifies as missing. -/
theorem has_missing_six_fields_counterexample :
    ¬ (hasMissingData
        { PositionName := "", Quality := "", AQI := "-", O3 := "35", NO2 := "35",
          PM10 := "35", PM25 := "35", SO2 := "35", CO := "35", Latitude := "",
          Longitude := "", TimePoint := "", StationCode := "",
          PrimaryPollutant := "" } = true ↔
      (isMissingValue "35" = true ∨ isMissingValue "35" = true ∨
       isMissingValue "35" = true ∨ isMissingValue "35" = true ∨
       isMissingValue "35" = true ∨ isMissingValue "35" = true)) := by
  decide

/-- C2 amended: `hasMissingData` is true iff at least one of the seven
checked fields — the AQI composite index together with the six pollutant
fields — classifies as missing. -/
theorem has_missing_iff_any_of_seven (r : AQIData) :
    hasMissingData r = true ↔
      (isMissingValue r.AQI = true ∨ isMissingValue r.PM25 = true ∨
       isMissingValue r.PM10 = true ∨ isMissingValue r.O3 = true ∨
       isMissingValue r.NO2 = true ∨ isMissingValue r.SO2 = true ∨
       isMissingValue r.CO = true) := by
  simp [hasMissingData, Bool.or_eq_true, or_assoc]

theorem selectProblems_go (ignore : List String) :
    ∀ (data : List AQIData) (acc : List AQIData),
      data.foldl (fun acc st =>
        if st.PositionName ∈ ignore then acc
        else if hasMissingData st then acc ++ [st] else acc) acc =
      acc ++ data.filter
        (fun st => decide (st.PositionName ∉ ignore) && hasMissingData st) := by
  intro data
  induction data with
  | nil => intro acc; simp
  | cons x t ih =>
    intro acc
    simp only [List.foldl_cons, List.filter_cons]
    by_cases hig : x.PositionName ∈ ignore
    · simp [hig, ih]
    · by_cases hm : hasMissingData x = true
      · simp [hig, hm, ih]
      · simp [hig, hm, ih]

/-- C3.  The Problem Selector returns exactly the upstream-ordered
subsequence of stations that are not in the ignore set and have at least
one missing field; ignored names are excluded unconditionally; missing
factors are reported in the fixed canonical order; the build-time ignore
set holds the single name from the source. -/
theorem problem_selector_filter_correct :
    ignorePositionNames = ["帽峰山森林公园"] ∧
    ∀ (ignore : List String) (data : List AQIData),
      selectProblems ignore data =
        data.filter (fun st =>
          decide (st.PositionName ∉ ignore) && !(getMissingFactors st).isEmpty) ∧
      List.Sublist (selectProblems ignore data) data ∧
      (∀ st, st.PositionName ∈ ignore →
        st ∉ selectProblems ignore data) ∧
      (∀ st, List.Sublist (getMissingFactors st) canonicalFactors) := by
  refine ⟨rfl, ?_⟩
  intro ignore data
  have hpred : (fun st : AQIData =>
        decide (st.PositionName ∉ ignore) && hasMissingData st) =
      (fun st : AQIData =>
        decide (st.PositionName ∉ ignore) && !(getMissingFactors st).isEmpty) := by
    funext st
    rw [hasMissingData_eq_not_isEmpty]
  have heq : selectProblems ignore data =
      data.filter (fun st =>
        decide (st.PositionName ∉ ignore) && !(getMissingFactors st).isEmpty) := by
    unfold selectProblems
    rw [selectProblems_go ignore data []]
    rw [hpred]
    simp
  refine ⟨heq, ?_, ?_, fun st => getMissingFactors_sublist st⟩
  · rw [heq]; exact List.filter_sublist data
  · intro st hig hmem
    rw [heq] at hmem
    have := (List.mem_filter.1 hmem).2
    rw [Bool.and_eq_true] at this
    have hnotin := of_decide_eq_true this.1
    exact hnotin hig

/-- C3 witness: with the build-time ignore set, a station named
"帽峰山森林公园" is never selected. -/
theorem problem_selector_filter_correct_witness :
    ({ PositionName := "帽峰山森林公园", Quality := "", AQI := "-", O3 := "",
       NO2 := "", PM10 := "", PM25 := "", SO2 := "", CO := "", Latitude := "",
       Longitude := "", TimePoint := "", StationCode := "",
       PrimaryPollutant := "" } : AQIData) ∉
      selectProblems ["帽峰山森林公园"]
        [{ PositionName := "帽峰山森林公园", Quality := "", AQI := "-", O3 := "",
           NO2 := "", PM10 := "", PM25 := "", SO2 := "", CO := "", Latitude := "",
           Longitude := "", TimePoint := "", StationCode := "",
           PrimaryPollutant := "" }] :=
  (problem_selector_filter_correct.2 ["帽峰山森林公园"] _).2.2.1 _ (by decide)

/-- C10.  A record has missing data iff its missing-factor list is
non-empty; that list is always a subsequence of the canonical factor list;
hence every selected problem station carries at least one named factor and
the empty-list "无" placeholder branch of `formatMissingFactors` is
unreachable for composed alerts. -/
theorem missing_factors_nonempty_iff_has_missing :
    (∀ r : AQIData, hasMissingData r = true ↔ getMissingFactors r ≠ []) ∧
    (∀ r : AQIData, List.Sublist (getMissingFactors r) canonicalFactors) ∧
    (∀ (ignore : List String) (data : List AQIData) (st : AQIData),
      st ∈ selectProblems ignore data →
      getMissingFactors st ≠ [] ∧
      formatMissingFactors (getMissingFactors st) =
        String.intercalate "、" (getMissingFactors st)) := by
  refine ⟨hasMissingData_iff_factors_ne_nil, getMissingFactors_sublist, ?_⟩
  intro ignore data st hmem
  have heq := (problem_selector_filter_correct.2 ignore data).1
  rw [heq] at hmem
  have hp := (List.mem_filter.1 hmem).2
  rw [Bool.and_eq_true] at hp
  have hne : getMissingFactors st ≠ [] := by
    have := hp.2
    rcases h : getMissingFactors st with _ | ⟨a, t⟩
    · rw [h] at this
      exact absurd this (by simp)
    · simp
  refine ⟨hne, ?_⟩
  rw [formatMissingFactors, if_neg hne]

/-- C10 witness: a concrete station with a missing AQI field is selected
and its factor rendering goes through the join branch. -/
theorem missing_factors_nonempty_iff_has_missing_witness :
    getMissingFactors
        { PositionName := "甲", Quality := "", AQI := "-", O3 := "1", NO2 := "1",
          PM10 := "1", PM25 := "1", SO2 := "1", CO := "1", Latitude := "",
          Longitude := "", TimePoint := "", StationCode := "",
          PrimaryPollutant := "" } ≠ [] ∧
    formatMissingFactors (getMissingFactors
        { PositionName := "甲", Quality := "", AQI := "-", O3 := "1", NO2 := "1",
          PM10 := "1", PM25 := "1", SO2 := "1", CO := "1", Latitude := "",
          Longitude := "", TimePoint := "", StationCode := "",
          PrimaryPollutant := "" }) =
      String.intercalate "、" (getMissingFactors
        { PositionName := "甲", Quality := "", AQI := "-", O3 := "1", NO2 := "1",
          PM10 := "1", PM25 := "1", SO2 := "1", CO := "1", Latitude := "",
          Longitude := "", TimePoint := "", StationCode := "",
          PrimaryPollutant := "" }) :=
  missing_factors_nonempty_iff_has_missing.2.2 []
    [{ PositionName := "甲", Quality := "", AQI := "-", O3 := "1", NO2 := "1",
       PM10 := "1", PM25 := "1", SO2 := "1", CO := "1", Latitude := "",
       Longitude := "", TimePoint := "", StationCode := "",
       PrimaryPollutant := "" }] _ (by decide)

theorem runRetry_ok0 {E A : Type} {fetch : Nat → Except E A} {a : A}
    (h0 : fetch 0 = .ok a) :
    runRetry fetch = ⟨some a, none, [], 1, true⟩ := by
  simp [runRetry, retryStep, h0]

theorem runRetry_fail0_ok1 {E A : Type} {fetch : Nat → Except E A} {e0 : E}
    {a : A} (h0 : fetch 0 = .error e0) (h1 : fetch 1 = .ok a) :
    runRetry fetch = ⟨some a, none, [backoffMs 0], 2, true⟩ := by
  simp [runRetry, retryStep, h0, h1]

theorem runRetry_fail01_ok2 {E A : Type} {fetch : Nat → Except E A}
    {e0 e1 : E} {a : A} (h0 : fetch 0 = .error e0) (h1 : fetch 1 = .error e1)
    (h2 : fetch 2 = .ok a) :
    runRetry fetch = ⟨some a, none, [backoffMs 0, backoffMs 1], 3, true⟩ := by
  simp [runRetry, retryStep, h0, h1, h2]

theorem runRetry_allFail {E A : Type} {fetch : Nat → Except E A}
    {e0 e1 e2 : E} (h0 : fetch 0 = .error e0) (h1 : fetch 1 = .error e1)
    (h2 : fetch 2 = .error e2) :
    runRetry fetch =
      ⟨none, some e2, [backoffMs 0, backoffMs 1, backoffMs 2], 3, false⟩ := by
  simp [runRetry, retryStep, h0, h1, h2]

/-- C4.  The fetch is attempted at most 3 times; if every attempt fails,
exactly 3 attempts are issued and the third error is surfaced verbatim;
the backoff for attempt index i is `500*2^i` ms (500 ms, 1 s, 2 s), the
i-th sleep performed always has that duration, and every failed attempt is
followed by its sleep (so on early success the number of sleeps is one
less than the number of attempts). -/
theorem retry_policy (E A : Type) (fetch : Nat → Except E A) :
    (runRetry fetch).attempts ≤ 3 ∧
    (backoffMs 0 = 500 ∧ backoffMs 1 = 1000 ∧ backoffMs 2 = 2000) ∧
    (∀ (i : Nat) (h : i < (runRetry fetch).sleeps.length),
      (runRetry fetch).sleeps.get ⟨i, h⟩ = backoffMs i) ∧
    (∀ e0 e1 e2, fetch 0 = .error e0 → fetch 1 = .error e1 →
      fetch 2 = .error e2 →
      (runRetry fetch).attempts = 3 ∧ (runRetry fetch).err = some e2 ∧
      (runRetry fetch).sleeps = [500, 1000, 2000]) ∧
    ((runRetry fetch).err.isSome = true →
      (runRetry fetch).sleeps.length = (runRetry fetch).attempts) ∧
    ((runRetry fetch).err = none →
      (runRetry fetch).sleeps.length + 1 = (runRetry fetch).attempts) := by
  rcases h0 : fetch 0 with e0 | a0
  · rcases h1 : fetch 1 with e1 | a1
    · rcases h2 : fetch 2 with e2 | a2
      · rw [runRetry_allFail h0 h1 h2]
        refine ⟨by simp, by refine ⟨rfl, rfl, rfl⟩, ?_, ?_, by simp, by simp⟩
        · intro i h
          simp only [List.length_cons, List.length_nil] at h
          interval_cases i <;> rfl
        · intro f0 f1 f2 hf0 hf1 hf2
          simp_all [backoffMs]
      · rw [runRetry_fail01_ok2 h0 h1 h2]
        refine ⟨by simp, by refine ⟨rfl, rfl, rfl⟩, ?_, ?_, by simp, by simp⟩
        · intro i h
          simp only [List.length_cons, List.length_nil] at h
          interval_cases i <;> rfl
        · intro f0 f1 f2 hf0 hf1 hf2
          simp_all
    · rw [runRetry_fail0_ok1 h0 h1]
      refine ⟨by simp, by refine ⟨rfl, rfl, rfl⟩, ?_, ?_, by simp, by simp⟩
      · intro i h
        simp only [List.length_cons, List.length_nil] at h
        interval_cases i
        rfl
      · intro f0 f1 f2 hf0 hf1 hf2
        simp_all
  · rw [runRetry_ok0 h0]
    refine ⟨by simp, by refine ⟨rfl, rfl, rfl⟩, ?_, ?_, by simp, by simp⟩
    · intro i h
      simp at h
    · intro f0 f1 f2 hf0 hf1 hf2
      simp_all

/-- C4 witness: with a fetch that fails on every attempt, the loop issues
3 attempts, surfaces the third error, and sleeps 500, 1000, 2000 ms. -/
theorem retry_policy_witness :
    (runRetry (fun _ => (Except.error "boom" : Except String Unit))).attempts = 3 ∧
    (runRetry (fun _ => (Except.error "boom" : Except String Unit))).err =
      some "boom" ∧
    (runRetry (fun _ => (Except.error "boom" : Except String Unit))).sleeps =
      [500, 1000, 2000] :=
  (retry_policy String Unit (fun _ => Except.error "boom")).2.2.2.1
    "boom" "boom" "boom" rfl rfl rfl

theorem findSome?_eq_head_filterMap {α β : Type} (f : α → Option β)
    (l : List α) : l.findSome? f = (l.filterMap f).head? := by
  induction l with
  | nil => rfl
  | cons a t ih =>
    rw [List.findSome?_cons, List.filterMap_cons]
    cases h : f a
    · simp only [h]
      exact ih
    · simp only [h, List.head?_cons]

theorem tryWrapperKeys_eq_findSome (m : List (String × Json))
    (ks : List String) :
    tryWrapperKeys m ks =
      ks.findSome? (fun k => (mapGet m k).bind decodeStations) := by
  induction ks with
  | nil => rfl
  | cons k rest ih =>
    simp only [tryWrapperKeys, List.findSome?_cons]
    cases hg : mapGet m k with
    | none => simpa [hg] using ih
    | some v => cases hd : decodeStations v <;> simp [hg, hd, ih]

theorem scanValues_eq_findSome (l : List (String × Json)) :
    scanValues l = l.findSome? (fun kv => decodeStations kv.2) := by
  induction l with
  | nil => rfl
  | cons kv rest ih =>
    simp only [scanValues, List.findSome?_cons]
    cases hd : decodeStations kv.2 <;> simp [hd, ih]

theorem mapInsert_keys (m : List (String × Json)) (k : String) (v : Json) :
    (mapInsert m k v).map Prod.fst =
      if m.any (fun e => e.1 == k) then m.map Prod.fst
      else m.map Prod.fst ++ [k] := by
  unfold mapInsert
  by_cases h : m.any (fun e => e.1 == k) = true
  · rw [if_pos h, if_pos h, List.map_map]
    refine List.map_congr_left ?_
    intro e he
    simp only [Function.comp_apply]
    by_cases hk : (e.1 == k) = true
    · simp [hk, eq_of_beq hk]
    · simp [hk]
  · rw [if_neg h, if_neg h, List.map_append]
    rfl

theorem mapOf_keys_nodup (members : List (String × Json)) :
    ((mapOf members).map Prod.fst).Nodup := by
  suffices h : ∀ (ms m : List (String × Json)),
      (m.map Prod.fst).Nodup →
      ((ms.foldl (fun m kv => mapInsert m kv.1 kv.2) m).map Prod.fst).Nodup by
    exact h members [] (by simp)
  intro ms
  induction ms with
  | nil => intro m hm; simpa using hm
  | cons kv rest ih =>
    intro m hm
    simp only [List.foldl_cons]
    apply ih
    rw [mapInsert_keys]
    by_cases h : m.any (fun e => e.1 == kv.1) = true
    · rw [if_pos h]; exact hm
    · rw [if_neg h]
      have hfalse : m.any (fun e => e.1 == kv.1) = false := by
        cases hh : m.any (fun e => e.1 == kv.1)
        · rfl
        · exact absurd hh h
      have hnot : kv.1 ∉ m.map Prod.fst := by
        intro hmem
        rcases List.mem_map.1 hmem with ⟨e, he, hfst⟩
        have hfe := (List.any_eq_false.mp hfalse) e he
        rw [hfst] at hfe
        simp at hfe
      simp [List.nodup_append, hm, hnot]

theorem mapGet_of_mem_nodup (m : List (String × Json)) (k : String)
    (v : Json) (hnd : (m.map Prod.fst).Nodup) (hmem : (k, v) ∈ m) :
    mapGet m k = some v := by
  induction m with
  | nil => simp at hmem
  | cons e rest ih =>
    simp only [List.map_cons, List.nodup_cons] at hnd
    by_cases hk : (e.1 == k) = true
    · rcases List.mem_cons.1 hmem with he | hrest
      · rw [← he]
        simp [mapGet, List.find?]
      · have : k ∈ rest.map Prod.fst := List.mem_map.2 ⟨(k, v), hrest, rfl⟩
        rw [eq_of_beq hk] at hnd
        exact absurd this hnd.1
    · rcases List.mem_cons.1 hmem with he | hrest
      · have : (e.1 == k) = true := by rw [← he]; simp
        exact absurd this hk
      · have hkf : (e.1 == k) = false := by
          cases hh : (e.1 == k)
          · rfl
          · exact absurd hh hk
        have := ih hnd.2 hrest
        simpa [mapGet, List.find?, hkf] using this

theorem scanValues_filter_eq (p : String × Json → Bool)
    (l : List (String × Json))
    (h : ∀ kv ∈ l, p kv = false → decodeStations kv.2 = none) :
    scanValues l = scanValues (l.filter p) := by
  induction l with
  | nil => rfl
  | cons kv rest ih =>
    have hrest := ih (fun e he hf => h e (List.mem_cons_of_mem _ he) hf)
    by_cases hp : p kv = true
    · simp only [List.filter_cons, hp, if_true, scanValues]
      cases hd : decodeStations kv.2 <;> simp [hd, hrest]
    · have hpf : p kv = false := by
        cases hpp : p kv
        · rfl
        · exact absurd hpp hp
      have hdn : decodeStations kv.2 = none := h kv (List.mem_cons_self _ _) hpf
      simp only [List.filter_cons, hpf, Bool.false_eq_true, if_false, scanValues,
        hdn]
      exact hrest

theorem perm_eq_of_length_le_one {α : Type} {X Z : List α}
    (h : X.Perm Z) (hz : Z.length ≤ 1) : X = Z := by
  cases Z with
  | nil => exact h.eq_nil
  | cons z zs =>
    cases zs with
    | nil => exact List.Perm.eq_singleton h
    | cons z2 zs2 =>
      exfalso
      simp [List.length_cons] at hz

/-- C5.  The decoding stage of `fetchAQIData` refines the spec's wording
of the Response Decoder: direct array first, then the wrapper keys in the
fixed priority order "Data", "data", "Rows", "rows", "Table", "table",
"records", "Records", then the first remaining value in iteration order
that decodes as a station array, and a decode error only if no
interpretation succeeds. -/
theorem response_decoder_matches_spec (v : Json)
    (scanOrder : List (String × Json)) (hIter : IterOrder v scanOrder) :
    fetchDecode v scanOrder = decoderSpec v scanOrder := by
  cases v with
  | null => rfl
  | bool b => rfl
  | num n => rfl
  | str s => rfl
  | arr elems =>
    simp only [fetchDecode, decoderSpec]
  | obj members =>
    have hperm : scanOrder.Perm (mapOf members) := hIter
    have hds : decodeStations (Json.obj members) = none := rfl
    simp only [fetchDecode, decoderSpec, hds]
    rw [tryWrapperKeys_eq_findSome]
    cases hk : wrapperKeys.findSome?
        (fun k => (mapGet (mapOf members) k).bind decodeStations) with
    | some arr => rfl
    | none =>
      have hfail : ∀ kv ∈ scanOrder, (!wrapperKeys.contains kv.1) = false →
          decodeStations kv.2 = none := by
        intro kv hmem hb
        have hk1 : kv.1 ∈ wrapperKeys := by
          have hc : wrapperKeys.contains kv.1 = true := by
            cases hcc : wrapperKeys.contains kv.1
            · rw [hcc] at hb; simp at hb
            · rfl
          simpa using hc
        have hmm : kv ∈ mapOf members := (hperm.mem_iff).1 hmem
        have hget : mapGet (mapOf members) kv.1 = some kv.2 :=
          mapGet_of_mem_nodup _ _ _ (mapOf_keys_nodup members)
            (by simpa using hmm)
        have hnone := (List.findSome?_eq_none_iff.mp hk) kv.1 hk1
        rw [hget] at hnone
        simpa using hnone
      rw [scanValues_filter_eq _ scanOrder hfail, scanValues_eq_findSome]

/-- C5 witness: a payload wrapped under the "Data" key decodes, and the
loop-style decoder agrees with the spec-worded one on it. -/
theorem response_decoder_matches_spec_witness :
    fetchDecode (Json.obj [("Data", Json.arr [])]) [("Data", Json.arr [])] =
      decoderSpec (Json.obj [("Data", Json.arr [])]) [("Data", Json.arr [])] :=
  response_decoder_matches_spec _ _ (List.Perm.refl _)

/-- C6 counterexample: an object with two non-wrapper members that both
decode as (different) station arrays is decoded differently under two
legitimate map iteration orders, so the decoder's result is not a function
of the payload bytes alone. -/
theorem decoder_determinism_counterexample :
    IterOrder (Json.obj [("x", Json.arr []), ("y", Json.arr [Json.null])])
      [("x", Json.arr []), ("y", Json.arr [Json.null])] ∧
    IterOrder (Json.obj [("x", Json.arr []), ("y", Json.arr [Json.null])])
      [("y", Json.arr [Json.null]), ("x", Json.arr [])] ∧
    fetchDecode (Json.obj [("x", Json.arr []), ("y", Json.arr [Json.null])])
        [("x", Json.arr []), ("y", Json.arr [Json.null])] ≠
      fetchDecode (Json.obj [("x", Json.arr []), ("y", Json.arr [Json.null])])
        [("y", Json.arr [Json.null]), ("x", Json.arr [])] := by
  refine ⟨List.Perm.refl _, List.Perm.swap _ _ [], by decide⟩

/-- C6 amended: the decoder is independent of the map iteration order
whenever the wrapper-key phase succeeds or at most one member of the map
decodes as a station array, and always for non-object payloads; when the
fallback scan has two or more decodable members, the result depends on
the iteration order, which Go randomises even within a run. -/
theorem decoder_order_independent_unless_fallback :
    (∀ (members o₁ o₂ : List (String × Json)),
      o₁.Perm (mapOf members) → o₂.Perm (mapOf members) →
      (tryWrapperKeys (mapOf members) wrapperKeys ≠ none ∨
        atMostOneCandidate members) →
      fetchDecode (Json.obj members) o₁ = fetchDecode (Json.obj members) o₂) ∧
    (∀ (v : Json) (o₁ o₂ : List (String × Json)),
      (∀ members, v ≠ Json.obj members) →
      fetchDecode v o₁ = fetchDecode v o₂) := by
  constructor
  · intro members o₁ o₂ hp1 hp2 hcase
    have hds : decodeStations (Json.obj members) = none := rfl
    simp only [fetchDecode, hds]
    cases hk : tryWrapperKeys (mapOf members) wrapperKeys with
    | some arr => rfl
    | none =>
      rcases hcase with hne | hone
      · exact absurd hk hne
      · have g := fun kv : String × Json => decodeStations kv.2
        rw [scanValues_eq_findSome, scanValues_eq_findSome,
          findSome?_eq_head_filterMap, findSome?_eq_head_filterMap]
        have h1 : (o₁.filterMap (fun kv => decodeStations kv.2)).Perm
            ((mapOf members).filterMap (fun kv => decodeStations kv.2)) :=
          hp1.filterMap _
        have h2 : (o₂.filterMap (fun kv => decodeStations kv.2)).Perm
            ((mapOf members).filterMap (fun kv => decodeStations kv.2)) :=
          hp2.filterMap _
        rw [perm_eq_of_length_le_one h1 hone,
          perm_eq_of_length_le_one h2 hone]
  · intro v o₁ o₂ hne
    cases v with
    | obj members => exact absurd rfl (hne members)
    | null => rfl
    | bool b => rfl
    | num n => rfl
    | str s => rfl
    | arr elems =>
      simp only [fetchDecode]

/-- C6 amended witness: only one of two members decodes, and both
iteration orders of the map give the same result. -/
theorem decoder_order_independent_unless_fallback_witness :
    fetchDecode (Json.obj [("x", Json.num 1), ("y", Json.arr [])])
        [("x", Json.num 1), ("y", Json.arr [])] =
      fetchDecode (Json.obj [("x", Json.num 1), ("y", Json.arr [])])
        [("y", Json.arr []), ("x", Json.num 1)] :=
  decoder_order_independent_unless_fallback.1 _ _ _ (List.Perm.refl _)
    (List.Perm.swap _ _ []) (Or.inr (by unfold atMostOneCandidate; decide))

/-- C7 counterexample: a run whose every attempt returns HTTP 200 with a
body that parses as JSON but fails every decoding interpretation issues
all 3 fetch attempts, not 1, before surfacing the decode error. -/
theorem decode_error_not_retried_counterexample :
    (runRetry (fun _ : Nat => fetchAQIDataModel
        (FetchOutcome.response ⟨200, "{}", some (Json.obj []), []⟩))).attempts
      = 3 ∧
    ¬ (runRetry (fun _ : Nat => fetchAQIDataModel
        (FetchOutcome.response ⟨200, "{}", some (Json.obj []), []⟩))).attempts
      = 1 := by
  refine ⟨by decide, by decide⟩

/-- C7 amended: the retry loop of `main` does not inspect the error kind;
decode errors are retried exactly like transport and status failures, so a
run whose every attempt ends in the decode error issues all 3 attempts,
sleeps the full backoff sequence, and only then surfaces the decode
error. -/
theorem decode_errors_retried (outcomes : Nat → FetchOutcome)
    (h : ∀ i, i < 3 → fetchAQIDataModel (outcomes i) =
      .error FetchErr.decodeError) :
    (runRetry (fun i => fetchAQIDataModel (outcomes i))).attempts = 3 ∧
    (runRetry (fun i => fetchAQIDataModel (outcomes i))).err =
      some FetchErr.decodeError ∧
    (runRetry (fun i => fetchAQIDataModel (outcomes i))).sleeps =
      [500, 1000, 2000] := by
  have h0 := h 0 (by omega)
  have h1 := h 1 (by omega)
  have h2 := h 2 (by omega)
  rw [@runRetry_allFail FetchErr (List AQIData)
    (fun i => fetchAQIDataModel (outcomes i)) _ _ _ h0 h1 h2]
  exact ⟨rfl, rfl, rfl⟩

/-- C7 amended witness: a concrete always-undecodable exchange exhausts
the 3 attempts and surfaces the decode error. -/
theorem decode_errors_retried_witness :
    (runRetry (fun _ : Nat => fetchAQIDataModel
        (FetchOutcome.response ⟨200, "{}", some (Json.obj []), []⟩))).err =
      some FetchErr.decodeError :=
  (decode_errors_retried
    (fun _ => FetchOutcome.response ⟨200, "{}", some (Json.obj []), []⟩)
    (fun _ _ => rfl)).2.1

/-- C8.  The time label tries the five layouts in source order, the first
that parses wins and the time is re-rendered as "YYYY-MM-DD HH:MM:SS"; if
none parse the raw string is used verbatim; in particular
"2024-03-01T08:00:00" (rejected by the RFC3339 layout, accepted by the
bare date-time layout) renders as "2024-03-01 08:00:00" and "garbage"
renders as "garbage". -/
theorem time_label_derivation :
    (∀ (p : AQIData) (rest : List AQIData) (t : GoTime),
      parseTimeFlexible p.TimePoint = some t →
      formatTimeForAlert (p :: rest) = formatGoTime t) ∧
    (∀ (p : AQIData) (rest : List AQIData),
      parseTimeFlexible p.TimePoint = none →
      formatTimeForAlert (p :: rest) = p.TimePoint) ∧
    (∀ ts : String, goTrimSpace ts ≠ "" →
      parseTimeFlexible ts =
        layouts.findSome? (fun lay => parseWithLayout lay (goTrimSpace ts))) ∧
    parseWithLayout TimeLayout.rfc3339 "2024-03-01T08:00:00" = none ∧
    parseWithLayout TimeLayout.dateTimeT "2024-03-01T08:00:00" =
      some ⟨2024, 3, 1, 8, 0, 0⟩ ∧
    formatTimeForAlert
      [{ zeroStation with TimePoint := "2024-03-01T08:00:00" }] =
      "2024-03-01 08:00:00" ∧
    formatTimeForAlert [{ zeroStation with TimePoint := "garbage" }] =
      "garbage" := by
  refine ⟨?_, ?_, ?_, by decide, by decide, by decide, by decide⟩
  · intro p rest t h
    simp [formatTimeForAlert, h]
  · intro p rest h
    simp [formatTimeForAlert, h]
  · intro ts h
    simp [parseTimeFlexible, h]

/-- C8 witness: the first-success rule applied to the sample timestamp
reproduces the canonical rendering. -/
theorem time_label_derivation_witness :
    formatTimeForAlert
        [{ zeroStation with TimePoint := "2024-03-01T08:00:00" }] =
      formatGoTime ⟨2024, 3, 1, 8, 0, 0⟩ :=
  time_label_derivation.1 _ [] ⟨2024, 3, 1, 8, 0, 0⟩ (by decide)

/-- C9.  Given an HTTP success status, a dispatch fails with the
application-level error exactly when the body parses as a generic JSON
object whose numeric "errcode" member is non-zero; otherwise (body not an
object, no "errcode", non-numeric "errcode", or zero) it succeeds on the
status alone; and the two channels classify identically. -/
theorem webhook_errcode_check (status : Nat) (body : Option Json)
    (h : status = 200) :
    ((∃ n, bodyErrcode body = some n ∧ n ≠ 0) ↔
      (∃ n, wechatResponseCheck status body = WebhookResult.appError n)) ∧
    ((¬ ∃ n, bodyErrcode body = some n ∧ n ≠ 0) →
      wechatResponseCheck status body = WebhookResult.ok) ∧
    dingtalkResponseCheck status body = wechatResponseCheck status body := by
  subst h
  rcases body with _ | v
  · simp [wechatResponseCheck, dingtalkResponseCheck, bodyErrcode]
  · cases v with
    | null => simp [wechatResponseCheck, dingtalkResponseCheck, bodyErrcode]
    | bool b => simp [wechatResponseCheck, dingtalkResponseCheck, bodyErrcode]
    | num n => simp [wechatResponseCheck, dingtalkResponseCheck, bodyErrcode]
    | str s => simp [wechatResponseCheck, dingtalkResponseCheck, bodyErrcode]
    | arr elems =>
      simp [wechatResponseCheck, dingtalkResponseCheck, bodyErrcode]
    | obj members =>
      cases hg : mapGet (mapOf members) "errcode" with
      | none =>
        simp [wechatResponseCheck, dingtalkResponseCheck, bodyErrcode, hg]
      | some j =>
        cases j with
        | num n =>
          by_cases hn : n = 0
          · subst hn
            simp [wechatResponseCheck, dingtalkResponseCheck, bodyErrcode, hg]
          · simp [wechatResponseCheck, dingtalkResponseCheck, bodyErrcode,
              hg, hn]
        | null =>
          simp [wechatResponseCheck, dingtalkResponseCheck, bodyErrcode, hg]
        | bool b =>
          simp [wechatResponseCheck, dingtalkResponseCheck, bodyErrcode, hg]
        | str s =>
          simp [wechatResponseCheck, dingtalkResponseCheck, bodyErrcode, hg]
        | arr elems =>
          simp [wechatResponseCheck, dingtalkResponseCheck, bodyErrcode, hg]
        | obj ms =>
          simp [wechatResponseCheck, dingtalkResponseCheck, bodyErrcode, hg]

/-- C9 witness: a 200 response whose body is an object with a non-zero
numeric errcode is classified as the application error. -/
theorem webhook_errcode_check_witness :
    ∃ n, wechatResponseCheck 200
        (some (Json.obj [("errcode", Json.num 93000)])) =
      WebhookResult.appError n :=
  (webhook_errcode_check 200
    (some (Json.obj [("errcode", Json.num 93000)])) rfl).1.mp
    ⟨93000, rfl, by decide⟩

end AQIWebhook
